import Mathlib

/-!
Verification of the git-UI core: a shallow embedding in Lean 4 of the
command queue (`app/exec/command_queue.py`), the command runner and git
command builder (`app/exec/command_runner.py`, `app/git/git_runner.py`,
`app/git/git_service.py`), the output parsers (`app/git/parse_*.py`) and
the controller's completion-routing handler
(`app/core/controller.py::_on_command_finished`).

Bytes are `List Nat` (one entry per byte) and decoded text is `List Char`.
Python operations that can raise (`list[i]`, tuple unpacking) are embedded
in `Except PyErr`, so "the parser never raises" is a provable statement and
not a triviality of Lean totality.
-/

namespace GitUI

abbrev Bytes := List Nat
abbrev Str := List Char

/-- Characters of a Lean string literal, used to write embedded text. -/
def chars (s : String) : Str := s.data

/-- Bytes of an ASCII string literal (each char must be below 128). -/
def asciiBytes (s : String) : Bytes := s.data.map Char.toNat

/-- Exceptions a translated Python expression can raise. -/
inductive PyErr where
  | indexError
  | valueError
  deriving Repr, DecidableEq

/-- Python `l[i]` on a list: raises `IndexError` when out of range. -/
def pyGet (l : List α) (i : Nat) : Except PyErr α :=
  match l.get? i with
  | some a => .ok a
  | none => .error .indexError

/-- Python `l[-1]` on a list: raises `IndexError` when empty. -/
def pyGetLast (l : List α) : Except PyErr α :=
  match l.getLast? with
  | some a => .ok a
  | none => .error .indexError

/-- The guarded pattern `l[i] if len(l) > i else d` used by the parsers. -/
def pyGetGuard (l : List α) (i : Nat) (d : α) : Except PyErr α :=
  if l.length > i then pyGet l i else .ok d

/-- Python `str.isspace` for a single character (the whitespace set used by
`str.strip()`, `str.split()` and `int()`). -/
def pyIsSpace (c : Char) : Bool :=
  let n := c.toNat
  (0x09 ≤ n && n ≤ 0x0D) || (0x1C ≤ n && n ≤ 0x1F) || n == 0x20 ||
    n == 0x85 || n == 0xA0 || n == 0x1680 ||
    (0x2000 ≤ n && n ≤ 0x200A) || n == 0x2028 || n == 0x2029 ||
    n == 0x202F || n == 0x205F || n == 0x3000

/-- Strip characters satisfying `p` from both ends (Python `str.strip`). -/
def pyStripWhen (p : Char → Bool) (s : Str) : Str :=
  ((s.dropWhile p).reverse.dropWhile p).reverse

/-- Python `str.strip()` with no argument: strips whitespace. -/
def pyStrip (s : Str) : Str := pyStripWhen pyIsSpace s

/-- Python `str.strip(cs)`: strips any character occurring in `cs`. -/
def pyStripChars (cs : Str) (s : Str) : Str :=
  pyStripWhen (fun c => cs.contains c) s

/-- Split a list on every occurrence of `sep`, keeping empty pieces:
Python `str.split(sep)` / `bytes.split(sep)` for a one-element separator. -/
def splitOnElem [DecidableEq α] (sep : α) : List α → List (List α)
  | [] => [[]]
  | a :: rest =>
    let r := splitOnElem sep rest
    if a = sep then [] :: r
    else
      match r with
      | h :: t => (a :: h) :: t
      | [] => [[a]]

/-- Python `str.split(sep, maxsplit)` for a one-character separator:
at most `n` splits, the remainder is kept whole. -/
def pySplitCharMax (sep : Char) : Nat → Str → List Str
  | 0, s => [s]
  | n + 1, s =>
    let pre := s.takeWhile (fun c => c ≠ sep)
    let rest := s.dropWhile (fun c => c ≠ sep)
    match rest with
    | [] => [s]
    | _ :: tail => pre :: pySplitCharMax sep n tail

/-- Python `str.split()` with no argument: split on whitespace runs,
discarding empty pieces. -/
def pySplitWsAux : Str → Str → List Str
  | cur, [] => if cur = [] then [] else [cur.reverse]
  | cur, c :: rest =>
    if pyIsSpace c then
      if cur = [] then pySplitWsAux [] rest
      else cur.reverse :: pySplitWsAux [] rest
    else pySplitWsAux (c :: cur) rest

def pySplitWs (s : Str) : List Str := pySplitWsAux [] s

/-- Line-break characters recognised by Python `str.splitlines`
(besides the combined `\r\n`). -/
def isLineBreak (c : Char) : Bool :=
  let n := c.toNat
  n == 0x0A || n == 0x0D || n == 0x0B || n == 0x0C ||
    n == 0x1C || n == 0x1D || n == 0x1E || n == 0x85 ||
    n == 0x2028 || n == 0x2029

/-- Python `str.splitlines()`: split at line boundaries (`\r\n` counts as
one boundary); no trailing empty line for a trailing break. -/
def pySplitLinesAux : Str → Str → List Str
  | cur, [] => if cur = [] then [] else [cur.reverse]
  | cur, '\x0d' :: '\x0a' :: rest2 => cur.reverse :: pySplitLinesAux [] rest2
  | cur, c :: rest =>
    if isLineBreak c then cur.reverse :: pySplitLinesAux [] rest
    else pySplitLinesAux (c :: cur) rest

def pySplitLines (s : Str) : List Str := pySplitLinesAux [] s

/-- Substring containment, Python `needle in hay`. -/
def strContains (hay needle : Str) : Bool :=
  match hay with
  | [] => needle.isPrefixOf []
  | _ :: rest => needle.isPrefixOf hay || strContains rest needle

/-- Digit run of `int()`: base-10 digits with single underscores allowed
between digits.  (Non-ASCII decimal digits are not modelled; no input in
this development contains them.) -/
def pyIntDigits (acc : Nat) : Str → Option Nat
  | [] => some acc
  | '_' :: c :: rest =>
    if c.isDigit then pyIntDigits (acc * 10 + (c.toNat - 48)) rest else none
  | ['_'] => none
  | c :: rest =>
    if c.isDigit then pyIntDigits (acc * 10 + (c.toNat - 48)) rest else none

/-- Python `int(s)`: optional surrounding whitespace, optional sign, then a
non-empty digit run; `none` models the `ValueError` the callers catch. -/
def pyInt (s : Str) : Option Int :=
  let t := pyStrip s
  match t with
  | '+' :: r =>
    match r with
    | c :: _ => if c.isDigit then (pyIntDigits 0 r).map Int.ofNat else none
    | [] => none
  | '-' :: r =>
    match r with
    | c :: _ => if c.isDigit then (pyIntDigits 0 r).map (fun n => -(n : Int)) else none
    | [] => none
  | c :: _ => if c.isDigit then (pyIntDigits 0 t).map Int.ofNat else none
  | [] => none

/-- The replacement character emitted by `errors="replace"`. -/
def replChar : Char := Char.ofNat 0xFFFD

/-- One step of UTF-8 decoding: decode one scalar (or one replacement
character for a maximal invalid subpart) from `b` followed by `rest`,
returning the character and the remaining bytes. -/
def decodeStep (b : Nat) (rest : Bytes) : Char × Bytes :=
  if b < 0x80 then (Char.ofNat b, rest)
  else if b < 0xC2 then (replChar, rest)
  else if b ≤ 0xDF then
    match rest with
    | b2 :: rest2 =>
      if 0x80 ≤ b2 ∧ b2 ≤ 0xBF then
        (Char.ofNat ((b - 0xC0) * 0x40 + (b2 - 0x80)), rest2)
      else (replChar, rest)
    | [] => (replChar, [])
  else if b ≤ 0xEF then
    match rest with
    | b2 :: rest2 =>
      let lo2 := if b = 0xE0 then 0xA0 else 0x80
      let hi2 := if b = 0xED then 0x9F else 0xBF
      if lo2 ≤ b2 ∧ b2 ≤ hi2 then
        match rest2 with
        | b3 :: rest3 =>
          if 0x80 ≤ b3 ∧ b3 ≤ 0xBF then
            (Char.ofNat ((b - 0xE0) * 0x1000 + (b2 - 0x80) * 0x40 + (b3 - 0x80)), rest3)
          else (replChar, rest2)
        | [] => (replChar, [])
      else (replChar, rest)
    | [] => (replChar, [])
  else if b ≤ 0xF4 then
    match rest with
    | b2 :: rest2 =>
      let lo2 := if b = 0xF0 then 0x90 else 0x80
      let hi2 := if b = 0xF4 then 0x8F else 0xBF
      if lo2 ≤ b2 ∧ b2 ≤ hi2 then
        match rest2 with
        | b3 :: rest3 =>
          if 0x80 ≤ b3 ∧ b3 ≤ 0xBF then
            match rest3 with
            | b4 :: rest4 =>
              if 0x80 ≤ b4 ∧ b4 ≤ 0xBF then
                (Char.ofNat ((b - 0xF0) * 0x40000 + (b2 - 0x80) * 0x1000 +
                  (b3 - 0x80) * 0x40 + (b4 - 0x80)), rest4)
              else (replChar, rest3)
            | [] => (replChar, [])
          else (replChar, rest2)
        | [] => (replChar, [])
      else (replChar, rest)
    | [] => (replChar, [])
  else (replChar, rest)

/-- UTF-8 decoding with `errors="replace"` (Python
`bytes.decode("utf-8", errors="replace")`).  Fuelled by the byte count:
each step consumes at least one byte, so the fuel never runs out. -/
def decodeAux : Nat → Bytes → Str
  | 0, _ => []
  | _, [] => []
  | fuel + 1, b :: rest =>
    let s := decodeStep b rest
    s.1 :: decodeAux fuel s.2

def decodeUtf8Replace (bs : Bytes) : Str := decodeAux bs.length bs

/-- A non-empty byte string always decodes to non-empty text. -/
theorem decodeUtf8Replace_ne_nil (bs : Bytes) (h : bs ≠ []) :
    decodeUtf8Replace bs ≠ [] := by
  cases bs with
  | nil => exact absurd rfl h
  | cons b rest => simp [decodeUtf8Replace, decodeAux]

/-! ## Domain models (`app/core/models.py`, `app/exec/command_models.py`) -/

/-- `models.FileChange`.  The two status codes are single characters
(`split_xy` always yields one-character strings). -/
structure FileChange where
  path : Str
  staged_status : Char
  unstaged_status : Char
  orig_path : Option Str := none
  deriving Repr, DecidableEq

/-- `models.BranchInfo`. -/
structure BranchInfo where
  name : Option Str
  head_oid : Option Str
  upstream : Option Str
  ahead : Int
  behind : Int
  deriving Repr, DecidableEq

/-- `models.Branch`. -/
structure Branch where
  name : Str
  is_current : Bool
  upstream : Option Str
  ahead : Int
  behind : Int
  gone : Bool
  deriving Repr, DecidableEq

/-- `models.RepoStatus`. -/
structure RepoStatus where
  branch : Option BranchInfo
  staged : List FileChange
  unstaged : List FileChange
  untracked : List FileChange
  conflicted : List FileChange
  deriving Repr, DecidableEq

/-- `models.Commit`. -/
structure Commit where
  oid : Str
  parents : List Str
  author_name : Str
  author_email : Str
  author_date : Str
  subject : Str
  deriving Repr, DecidableEq

/-- `models.StashEntry`. -/
structure StashEntry where
  oid : Str
  selector : Str
  summary : Str
  date : Str
  deriving Repr, DecidableEq

/-- `models.Tag`. -/
structure Tag where
  name : Str
  deriving Repr, DecidableEq

/-- `models.Remote`. -/
structure Remote where
  name : Str
  fetch_url : Option Str
  push_url : Option Str
  deriving Repr, DecidableEq

/-- `models.RemoteBranch`. -/
structure RemoteBranch where
  remote : Str
  name : Str
  full_name : Str
  deriving Repr, DecidableEq

/-! ## Status parser (`app/git/parse_status.py`) -/

/-- The local accumulator of `parse_status_porcelain_v2`: the four grouped
lists plus the branch metadata variables. -/
structure StatusAcc where
  staged : List FileChange := []
  unstaged : List FileChange := []
  untracked : List FileChange := []
  conflicted : List FileChange := []
  branch_name : Option Str := none
  branch_oid : Option Str := none
  branch_upstream : Option Str := none
  ahead : Int := 0
  behind : Int := 0
  branch_seen : Bool := false
  deriving Repr, DecidableEq

/-- `split_xy`: `(xy[0], xy[1])` when `len(xy) >= 2`, else `(".", ".")`. -/
def split_xy (xy : Str) : Char × Char :=
  match xy with
  | a :: b :: _ => (a, b)
  | _ => ('.', '.')

/-- `add_by_xy`: append to staged when the X code is not `.`, and to
unstaged when the Y code is not `.`. -/
def add_by_xy (acc : StatusAcc) (change : FileChange) (xy : Str) : StatusAcc :=
  let codes := split_xy xy
  let acc := if codes.1 ≠ '.' then { acc with staged := acc.staged ++ [change] } else acc
  if codes.2 ≠ '.' then { acc with unstaged := acc.unstaged ++ [change] } else acc

/-- The `# branch.*` header handling of `parse_status_porcelain_v2`
(lines 78-110 of `parse_status.py`). -/
def processBranchHeader (acc : StatusAcc) (line : Str) : StatusAcc :=
  let acc := { acc with branch_seen := true }
  let parts := pySplitCharMax ' ' 2 line
  if parts.length < 3 then acc
  else
    let key := (parts.get? 1).getD []
    let value := (parts.get? 2).getD []
    if key = chars "branch.oid" then
      if value ≠ chars "(initial)" ∧ value ≠ chars "(unknown)" then
        { acc with branch_oid := some value }
      else acc
    else if key = chars "branch.head" then
      if value ≠ chars "(detached)" ∧ value ≠ chars "(unknown)" then
        { acc with branch_name := some value }
      else acc
    else if key = chars "branch.upstream" then
      { acc with branch_upstream := some value }
    else if key = chars "branch.ab" then
      (pySplitWs value).foldl
        (fun a token =>
          match token with
          | '+' :: r => { a with ahead := (pyInt r).getD 0 }
          | '-' :: r => { a with behind := (pyInt r).getD 0 }
          | _ => a)
        acc
    else acc

/-- The record loop of `parse_status_porcelain_v2` (index-based in the
source because a type-2 record consumes the next record).  Fuelled by the
record count: every step consumes at least one record, so starting the
fuel at the list length never exhausts it. -/
def statusLoop : Nat → List Bytes → StatusAcc → Except PyErr StatusAcc
  | 0, _, acc => .ok acc
  | _ + 1, [], acc => .ok acc
  | fuel + 1, record :: rest, acc =>
    if record = [] then statusLoop fuel rest acc
    else
      let line := decodeUtf8Replace record
      if (chars "# ").isPrefixOf line then
        statusLoop fuel rest (processBranchHeader acc line)
      else
        match pyGet line 0 with
        | .error e => .error e
        | .ok record_type =>
          if record_type = '1' then
            let parts := pySplitCharMax ' ' 8 line
            match pyGetGuard parts 1 (chars ".."), pyGetGuard parts 8 [] with
            | .error e, _ => .error e
            | _, .error e => .error e
            | .ok xy, .ok path =>
              let change : FileChange :=
                { path := path, staged_status := (split_xy xy).1,
                  unstaged_status := (split_xy xy).2 }
              statusLoop fuel rest (add_by_xy acc change xy)
          else if record_type = '2' then
            let parts := pySplitCharMax ' ' 9 line
            match pyGetGuard parts 1 (chars ".."), pyGetGuard parts 9 [] with
            | .error e, _ => .error e
            | _, .error e => .error e
            | .ok xy, .ok path =>
              match rest with
              | next :: rest2 =>
                if next ≠ [] then
                  let change : FileChange :=
                    { path := path, staged_status := (split_xy xy).1,
                      unstaged_status := (split_xy xy).2,
                      orig_path := some (decodeUtf8Replace next) }
                  statusLoop fuel rest2 (add_by_xy acc change xy)
                else
                  let change : FileChange :=
                    { path := path, staged_status := (split_xy xy).1,
                      unstaged_status := (split_xy xy).2 }
                  statusLoop fuel (next :: rest2) (add_by_xy acc change xy)
              | [] =>
                let change : FileChange :=
                  { path := path, staged_status := (split_xy xy).1,
                    unstaged_status := (split_xy xy).2 }
                statusLoop fuel [] (add_by_xy acc change xy)
          else if record_type = 'u' then
            let parts := pySplitCharMax ' ' 10 line
            match pyGetGuard parts 1 (chars "UU"), pyGetGuard parts 10 [] with
            | .error e, _ => .error e
            | _, .error e => .error e
            | .ok xy, .ok path =>
              let change : FileChange :=
                { path := path, staged_status := (split_xy xy).1,
                  unstaged_status := (split_xy xy).2 }
              statusLoop fuel rest { acc with conflicted := acc.conflicted ++ [change] }
          else if record_type = '?' then
            let path := if line.length > 2 then line.drop 2 else []
            let change : FileChange :=
              { path := path, staged_status := '?', unstaged_status := '?' }
            statusLoop fuel rest { acc with untracked := acc.untracked ++ [change] }
          else statusLoop fuel rest acc

/-- Python truthiness of an optional string (`None` and `""` are falsy). -/
def pyTruthyOptStr (o : Option Str) : Bool :=
  match o with
  | none => false
  | some s => s ≠ []

/-- `parse_status_porcelain_v2`: split the payload on NUL bytes, run the
record loop, and assemble the `RepoStatus`. -/
def parse_status_porcelain_v2 (payload : Bytes) : Except PyErr RepoStatus :=
  let records := splitOnElem 0 payload
  match statusLoop records.length records {} with
  | .error e => .error e
  | .ok acc =>
    let branch : Option BranchInfo :=
      if acc.branch_seen || pyTruthyOptStr acc.branch_name ||
          pyTruthyOptStr acc.branch_oid || pyTruthyOptStr acc.branch_upstream ||
          acc.ahead ≠ 0 || acc.behind ≠ 0 then
        some { name := acc.branch_name, head_oid := acc.branch_oid,
               upstream := acc.branch_upstream, ahead := acc.ahead,
               behind := acc.behind }
      else none
    .ok { branch := branch, staged := acc.staged, unstaged := acc.unstaged,
          untracked := acc.untracked, conflicted := acc.conflicted }

/-! ## Log parser (`app/git/parse_log.py`) -/

/-- Pad `fields` on the right with empty strings up to `n` entries
(`fields += [""] * (n - len(fields))`). -/
def padFields (n : Nat) (fields : List Str) : List Str :=
  if fields.length < n then fields ++ List.replicate (n - fields.length) []
  else fields

/-- The record loop of `parse_log_records`; the six-way unpacking of
`fields[:6]` raises `ValueError` when fewer than six values arrive. -/
def logLoop : List Str → Except PyErr (List Commit)
  | [] => .ok []
  | record :: rest =>
    if record = [] then logLoop rest
    else
      let fields := padFields 6 (splitOnElem '\x1f' record)
      match fields.take 6 with
      | [oid, parents_raw, author_name, author_email, author_date, subject] =>
        let parents := if parents_raw ≠ [] then pySplitWs parents_raw else []
        match logLoop rest with
        | .error e => .error e
        | .ok commits =>
          .ok ({ oid := oid, parents := parents, author_name := author_name,
                 author_email := author_email, author_date := author_date,
                 subject := subject : Commit } :: commits)
      | _ => .error .valueError

/-- `parse_log_records`. -/
def parse_log_records (payload : Bytes) : Except PyErr (List Commit) :=
  logLoop (splitOnElem '\x1e' (decodeUtf8Replace payload))

/-! ## Stash parser (`app/git/parse_stash.py`) -/

/-- The record loop of `parse_stash_records`; the four-way unpacking of
`fields[:4]` raises `ValueError` when fewer than four values arrive. -/
def stashLoop : List Str → Except PyErr (List StashEntry)
  | [] => .ok []
  | record :: rest =>
    if record = [] then stashLoop rest
    else
      let fields := padFields 4 (splitOnElem '\x1f' record)
      match fields.take 4 with
      | [oid, selector, summary, date] =>
        match stashLoop rest with
        | .error e => .error e
        | .ok stashes =>
          .ok ({ oid := oid, selector := selector, summary := summary,
                 date := date : StashEntry } :: stashes)
      | _ => .error .valueError

/-- `parse_stash_records`. -/
def parse_stash_records (payload : Bytes) : Except PyErr (List StashEntry) :=
  stashLoop (splitOnElem '\x1e' (decodeUtf8Replace payload))

/-! ## Branch parser (`app/git/parse_branches.py`) -/

/-- `int(token.split()[1])` guarded by `except (IndexError, ValueError)`
with fallback 0. -/
def trackCount (token : Str) : Int :=
  match (pySplitWs token).get? 1 with
  | some t => (pyInt t).getD 0
  | none => 0

/-- One line of `parse_branches`. -/
def parseBranchLine (line : Str) : Except PyErr Branch :=
  let parts := splitOnElem '|' line
  match pyGetGuard parts 0 [], pyGetGuard parts 1 [],
      pyGetGuard parts 2 [], pyGetGuard parts 3 [] with
  | .error e, _, _, _ => .error e
  | _, .error e, _, _ => .error e
  | _, _, .error e, _ => .error e
  | _, _, _, .error e => .error e
  | .ok name, .ok head_flag, .ok upstream_raw, .ok track_raw =>
    let upstream := if upstream_raw ≠ [] then some upstream_raw else none
    let is_current := pyStrip head_flag = ['*']
    let track0 := pyStrip track_raw
    let track :=
      if (track0.head? = some '[') ∧ (track0.getLast? = some ']') then
        (track0.drop 1).dropLast
      else track0
    let init : Int × Int × Bool := (0, 0, false)
    let counts :=
      if track ≠ [] then
        let gone := strContains track (chars "gone")
        (splitOnElem ',' track).foldl
          (fun (a : Int × Int × Bool) tok =>
            let token := pyStrip tok
            if (chars "ahead ").isPrefixOf token then
              (trackCount token, a.2.1, a.2.2)
            else if (chars "behind ").isPrefixOf token then
              (a.1, trackCount token, a.2.2)
            else a)
          (0, 0, gone)
      else init
    .ok { name := name, is_current := is_current, upstream := upstream,
          ahead := counts.1, behind := counts.2.1, gone := counts.2.2 }

/-- The line loop of `parse_branches`. -/
def branchLoop : List Str → Except PyErr (List Branch)
  | [] => .ok []
  | line :: rest =>
    if line = [] then branchLoop rest
    else
      match parseBranchLine line with
      | .error e => .error e
      | .ok b =>
        match branchLoop rest with
        | .error e => .error e
        | .ok bs => .ok (b :: bs)

/-- `parse_branches`. -/
def parse_branches (payload : Bytes) : Except PyErr (List Branch) :=
  branchLoop (pySplitLines (decodeUtf8Replace payload))

/-! ## Remote-branch parser (`app/git/parse_remote_branches.py`) -/

/-- The line loop of `parse_remote_branches`; the two-way unpacking of
`name.split("/", 1)` raises `ValueError` when it yields one piece. -/
def remoteBranchLoop : List Str → Except PyErr (List RemoteBranch)
  | [] => .ok []
  | line :: rest =>
    let name := pyStrip line
    if name = [] then remoteBranchLoop rest
    else if strContains name (chars "->") then remoteBranchLoop rest
    else if ¬ strContains name (chars "/") then remoteBranchLoop rest
    else
      match pySplitCharMax '/' 1 name with
      | [remote, branch] =>
        if remote = [] ∨ branch = [] then remoteBranchLoop rest
        else if branch = chars "HEAD" then remoteBranchLoop rest
        else
          match remoteBranchLoop rest with
          | .error e => .error e
          | .ok bs =>
            .ok ({ remote := remote, name := branch, full_name := name :
                   RemoteBranch } :: bs)
      | _ => .error .valueError

/-- `parse_remote_branches`. -/
def parse_remote_branches (payload : Bytes) : Except PyErr (List RemoteBranch) :=
  remoteBranchLoop (pySplitLines (decodeUtf8Replace payload))

/-! ## Remotes parser (`app/git/parse_remotes.py`) -/

/-- Insertion-ordered dict update: replace in place or append. -/
def updAssoc (k : Str) (v : Remote) : List (Str × Remote) → List (Str × Remote)
  | [] => [(k, v)]
  | (k0, v0) :: rest =>
    if k0 = k then (k0, v) :: rest else (k0, v0) :: updAssoc k v rest

def lookupAssoc (k : Str) : List (Str × Remote) → Option Remote
  | [] => none
  | (k0, v0) :: rest => if k0 = k then some v0 else lookupAssoc k rest

/-- Python `" ".join(parts)`. -/
def joinSpace : List Str → Str
  | [] => []
  | [p] => p
  | p :: rest => p ++ ' ' :: joinSpace rest

/-- The line loop of `parse_remotes`; `parts[0]` and `parts[-1]` are the
raising accesses, guarded in the source by `len(parts) < 3: continue`. -/
def remotesLoop : List Str → List (Str × Remote) → Except PyErr (List (Str × Remote))
  | [], acc => .ok acc
  | line :: rest, acc =>
    if pyStrip line = [] then remotesLoop rest acc
    else
      let parts := pySplitWs line
      if parts.length < 3 then remotesLoop rest acc
      else
        match pyGet parts 0, pyGetLast parts with
        | .error e, _ => .error e
        | _, .error e => .error e
        | .ok name, .ok last =>
          let kind := (pyStripChars (chars "()") last).map Char.toLower
          let url := joinSpace (parts.drop 1).dropLast
          let current := (lookupAssoc name acc).getD
            { name := name, fetch_url := none, push_url := none }
          if kind = chars "fetch" then
            remotesLoop rest (updAssoc name
              { name := name, fetch_url := some url, push_url := current.push_url } acc)
          else if kind = chars "push" then
            remotesLoop rest (updAssoc name
              { name := name, fetch_url := current.fetch_url, push_url := some url } acc)
          else remotesLoop rest acc

/-- `parse_remotes`; the result is the dict's values in insertion order. -/
def parse_remotes (payload : Bytes) : Except PyErr (List Remote) :=
  match remotesLoop (pySplitLines (decodeUtf8Replace payload)) [] with
  | .error e => .error e
  | .ok acc => .ok (acc.map Prod.snd)

/-! ## Tag / conflict / diff parsers (`parse_tags.py`, `parse_conflicts.py`,
`parse_diff.py`) — no raising operation occurs in these sources. -/

/-- `parse_tags`. -/
def parse_tags (payload : Bytes) : Except PyErr (List Tag) :=
  .ok ((pySplitLines (decodeUtf8Replace payload)).foldr
    (fun line acc =>
      let name := pyStrip line
      if name = [] then acc else { name := name : Tag } :: acc) [])

/-- `parse_conflict_paths`. -/
def parse_conflict_paths (payload : Bytes) : Except PyErr (List Str) :=
  .ok ((pySplitLines (decodeUtf8Replace payload)).foldr
    (fun line acc =>
      let path := pyStrip line
      if path = [] then acc else path :: acc) [])

/-- `parse_diff_text`: passthrough decode. -/
def parse_diff_text (payload : Bytes) : Except PyErr Str :=
  .ok (decodeUtf8Replace payload)

/-! ## Command queue (`app/exec/command_queue.py`)

A `QueueItem`'s zero-argument action is not part of the scheduling state;
what the queue inspects is the key and the priority.  Each enqueued item in
the source carries a freshly created closure, so Python's
`list.remove(item)` (first structurally equal element) removes exactly the
selected occurrence; `List.erase` models it. -/

inductive QueuePriority where
  | USER
  | BACKGROUND
  deriving Repr, DecidableEq

instance : BEq QueuePriority := ⟨fun a b => decide (a = b)⟩

instance : LawfulBEq QueuePriority where
  eq_of_beq h := by simpa [BEq.beq] using h
  rfl := by simp [BEq.beq]

/-- `QueueItem` (key and priority; the action is opaque to the queue). -/
structure QueueItem where
  key : String
  priority : QueuePriority
  deriving Repr, DecidableEq

instance : BEq QueueItem := ⟨fun a b => decide (a = b)⟩

instance : LawfulBEq QueueItem where
  eq_of_beq h := by simpa [BEq.beq] using h
  rfl := by simp [BEq.beq]

/-- The queue's state: the `_running` flag and the pending list. -/
structure CommandQueue where
  running : Bool
  queue : List QueueItem
  deriving Repr, DecidableEq

/-- `user_items[0] if user_items else self._queue[0]`: the first queued
USER item if one exists, else the queue head. -/
def selectNext (q0 : QueueItem) (qs : List QueueItem) : QueueItem :=
  match (q0 :: qs).filter (fun q => q.priority == QueuePriority.USER) with
  | i :: _ => i
  | [] => q0

/-- `CommandQueue._try_start_next`: when idle and non-empty, pick the first
USER item if any, else the head; remove it (`list.remove`, first equal
occurrence), transition to running, and return the started item (whose
action the source then invokes). -/
def tryStartNext (s : CommandQueue) : CommandQueue × Option QueueItem :=
  if s.running then (s, none)
  else
    match s.queue with
    | [] => (s, none)
    | q0 :: qs =>
      let item := selectNext q0 qs
      ({ running := true, queue := (q0 :: qs).erase item }, some item)

/-- `CommandQueue.enqueue`: a BACKGROUND item first removes every queued
item with the same key; then append and try to start. -/
def enqueue (s : CommandQueue) (item : QueueItem) : CommandQueue × Option QueueItem :=
  let q :=
    if item.priority == QueuePriority.BACKGROUND then
      s.queue.filter (fun q => ¬ q.key == item.key)
    else s.queue
  tryStartNext { s with queue := q ++ [item] }

/-- `CommandQueue.mark_running`. -/
def markRunning (s : CommandQueue) : CommandQueue :=
  { s with running := true }

/-- `CommandQueue.mark_idle`: go idle, then chain to the next item. -/
def markIdle (s : CommandQueue) : CommandQueue × Option QueueItem :=
  tryStartNext { s with running := false }

/-- States reachable through the queue's public interface from the freshly
constructed queue (idle, empty). -/
inductive Reachable : CommandQueue → Prop where
  | init : Reachable ⟨false, []⟩
  | enq (item : QueueItem) : Reachable s → Reachable (enqueue s item).1
  | markRun : Reachable s → Reachable (markRunning s)
  | markIdl : Reachable s → Reachable (markIdle s).1

/-- Number of queued BACKGROUND items carrying key `k`. -/
def bgCount (k : String) (q : List QueueItem) : Nat :=
  (q.filter (fun it => it.priority == QueuePriority.BACKGROUND && it.key == k)).length

/-! ## Runner and git command builder (`command_runner.py`, `git_runner.py`,
`git_service.py`) -/

/-- `command_models.CommandSpec` (the env mapping as an ordered list). -/
structure CommandSpec where
  args : List String
  cwd : Option String := none
  env : Option (List (String × String)) := none
  deriving Repr, DecidableEq

/-- `command_models.RunHandle`. -/
structure RunHandle where
  run_id : Nat
  spec : CommandSpec
  started_at_ms : Int
  deriving Repr, DecidableEq

/-- `command_models.CommandResult`. -/
structure CommandResult where
  exit_code : Int
  stdout : Bytes
  stderr : Bytes
  duration_ms : Int
  deriving Repr, DecidableEq

/-- `CommandResult.ok`. -/
def CommandResult.ok (r : CommandResult) : Bool := r.exit_code == 0

/-- The mutable state of `CommandRunner`: the id generator, the run ids of
live processes, and the monotonic clock it reads at launch. -/
structure RunnerState where
  next_run_id : Nat := 1
  processes : List Nat := []
  clock : Int := 0
  deriving Repr, DecidableEq

/-- `CommandRunner.run`: raises `ValueError` before any process is started
when the argument vector is empty; otherwise registers a handle and starts
a process. -/
def commandRunnerRun (rs : RunnerState) (spec : CommandSpec) :
    Except PyErr (RunnerState × RunHandle) :=
  if spec.args = [] then .error .valueError
  else
    let handle : RunHandle :=
      { run_id := rs.next_run_id, spec := spec, started_at_ms := rs.clock }
    .ok ({ rs with next_run_id := rs.next_run_id + 1,
                   processes := rs.processes ++ [handle.run_id] }, handle)

/-- The deterministic environment defaults of `GitRunner`. -/
def gitDefaultEnv : List (String × String) :=
  [("GIT_PAGER", "cat"), ("GIT_TERMINAL_PROMPT", "0"), ("LANG", "C.UTF-8")]

/-- `dict.update`: overrides replace defaults in place, new keys append. -/
def mergeEnv (base : List (String × String)) : List (String × String) →
    List (String × String)
  | [] => base
  | (k, v) :: rest =>
    mergeEnv
      (if base.any (fun kv => kv.1 = k) then
        base.map (fun kv => if kv.1 = k then (k, v) else kv)
      else base ++ [(k, v)]) rest

/-- `GitRunner.run`: fail fast on an empty argument list, then prepend the
git executable and merge the default environment. -/
def gitRunnerRun (rs : RunnerState) (args : List String) (cwd : Option String)
    (env : Option (List (String × String)) := none) :
    Except PyErr (RunnerState × RunHandle) :=
  if args = [] then .error .valueError
  else
    commandRunnerRun rs
      { args := "git" :: args, cwd := cwd,
        env := some (mergeEnv gitDefaultEnv (env.getD [])) }

/-- `GitService.push`: `raise ValueError` before dispatch when
`set_upstream` is set and remote or branch is falsy (`None` or `""`). -/
def gitServicePush (rs : RunnerState) (repo_path : String)
    (set_upstream : Bool) (remote branch : Option String) :
    Except PyErr (RunnerState × RunHandle) :=
  let base := ["push"]
  if set_upstream then
    match remote, branch with
    | some r, some b =>
      if r = "" ∨ b = "" then .error .valueError
      else gitRunnerRun rs (base ++ ["-u", r, b]) (some repo_path)
    | _, _ => .error .valueError
  else gitRunnerRun rs base (some repo_path)

/-! ## Controller completion routing (`app/core/controller.py`) -/

/-- The error taxonomy of `app/core/errors.py` as stored in
`RepoState._last_error`. -/
inductive LastError where
  | commandFailed (command_args : List String) (exit_code : Int)
      (stdout stderr : Bytes)
  | notARepo (path : String)
  | parseError (exc : PyErr)
  deriving Repr, DecidableEq

/-- `core.repo_state.RepoState`: the data fields, the last error, and the
busy flag.  Setters in the source are plain assignments plus a signal. -/
structure RepoState where
  repo_path : Option String := none
  status : Option RepoStatus := none
  log : Option (List Commit) := none
  branches : Option (List Branch) := none
  stashes : Option (List StashEntry) := none
  tags : Option (List Tag) := none
  remotes : Option (List Remote) := none
  conflicts : Option (List Str) := none
  diff_text : Option Str := none
  last_error : Option LastError := none
  busy : Bool := false
  deriving Repr, DecidableEq

/-- `controller.PendingAction`. -/
structure PendingAction where
  kind : String
  repo_path : Option String := none
  path : Option String := none
  staged : Bool := false
  refresh_status : Bool := false
  refresh_branches : Bool := false
  refresh_log : Bool := false
  refresh_stashes : Bool := false
  refresh_tags : Bool := false
  refresh_remotes : Bool := false
  deriving Repr, DecidableEq

/-- The controller's own state: the pending-intent map (an insertion-ordered
`run_id -> PendingAction` dict) and the shared repo state. -/
structure CtrlState where
  pending : List (Nat × PendingAction)
  state : RepoState
  deriving Repr, DecidableEq

def lookupPending (run_id : Nat) : List (Nat × PendingAction) → Option PendingAction
  | [] => none
  | (i, a) :: rest => if i = run_id then some a else lookupPending run_id rest

def removePending (run_id : Nat) : List (Nat × PendingAction) → List (Nat × PendingAction)
  | [] => []
  | (i, a) :: rest =>
    if i = run_id then rest else (i, a) :: removePending run_id rest

/-- Python truthiness of `self._state.repo_path` (`None` and `""` falsy). -/
def repoPathFalsy (o : Option String) : Bool :=
  match o with
  | none => true
  | some p => p == ""

/-- A refresh method of the controller (`refresh_status`, `refresh_log`,
...): with no usable repo path it records `NotARepo("(none)")` and enqueues
nothing; otherwise it enqueues one BACKGROUND item under `key`. -/
def refreshIntent (key : String) (st : RepoState)
    (enq : List (String × QueuePriority)) :
    RepoState × List (String × QueuePriority) :=
  if repoPathFalsy st.repo_path then
    ({ st with last_error := some (.notARepo "(none)") }, enq)
  else (st, enq ++ [(key, QueuePriority.BACKGROUND)])

/-- Route a successfully parsed payload (`Except.ok`) into the matching
data field, or record a `ParseError` (the blanket `except` in each routing
arm of `_on_command_finished`). -/
def routeParsed (st : RepoState) (set : RepoState → α → RepoState)
    (parsed : Except PyErr α) : RepoState :=
  match parsed with
  | .ok v => { set st v with last_error := none }
  | .error e => { st with last_error := some (.parseError e) }

/-- `RepoController._on_command_finished`: pop the pending intent, surface
nonzero exits as `CommandFailed`, otherwise route by kind, then apply the
refresh flags; the `finally` block recomputes busy.  The returned list is
the sequence of `(key, priority)` pairs the handler enqueued. -/
def onCommandFinished (cs : CtrlState) (handle : RunHandle)
    (result : CommandResult) : CtrlState × List (String × QueuePriority) :=
  match lookupPending handle.run_id cs.pending with
  | none =>
    (⟨cs.pending, { cs.state with busy := cs.pending ≠ [] }⟩, [])
  | some action =>
    let pending := removePending handle.run_id cs.pending
    if ¬ result.ok then
      (⟨pending,
        { cs.state with
          last_error := some (.commandFailed handle.spec.args result.exit_code
            result.stdout result.stderr),
          busy := pending ≠ [] }⟩, [])
    else
      let st := cs.state
      let routed : RepoState × List (String × QueuePriority) :=
        if action.kind = "validate_repo" then
          let output := pyStrip (decodeUtf8Replace result.stdout)
          if output = chars "true" then
            let st := { st with repo_path := action.repo_path, last_error := none }
            refreshIntent "refresh_status" st []
          else
            ({ st with last_error := some (.notARepo
              (match action.repo_path with
               | some p => p
               | none => "")) }, [])
        else if action.kind = "status" then
          (routeParsed st (fun s v => { s with status := some v })
            (parse_status_porcelain_v2 result.stdout), [])
        else if action.kind = "log" then
          (routeParsed st (fun s v => { s with log := some v })
            (parse_log_records result.stdout), [])
        else if action.kind = "branches" then
          (routeParsed st (fun s v => { s with branches := some v })
            (parse_branches result.stdout), [])
        else if action.kind = "conflicts" then
          (routeParsed st (fun s v => { s with conflicts := some v })
            (parse_conflict_paths result.stdout), [])
        else if action.kind = "stashes" then
          (routeParsed st (fun s v => { s with stashes := some v })
            (parse_stash_records result.stdout), [])
        else if action.kind = "tags" then
          (routeParsed st (fun s v => { s with tags := some v })
            (parse_tags result.stdout), [])
        else if action.kind = "remotes" then
          (routeParsed st (fun s v => { s with remotes := some v })
            (parse_remotes result.stdout), [])
        else if action.kind = "diff" then
          (routeParsed st (fun s v => { s with diff_text := some v })
            (parse_diff_text result.stdout), [])
        else (st, [])
      let afterFlags :=
        [("refresh_status", action.refresh_status),
         ("refresh_branches", action.refresh_branches),
         ("refresh_log", action.refresh_log),
         ("refresh_stashes", action.refresh_stashes),
         ("refresh_tags", action.refresh_tags),
         ("refresh_remotes", action.refresh_remotes)].foldl
          (fun acc kf =>
            if kf.2 then refreshIntent kf.1 acc.1 acc.2 else acc)
          routed
      (⟨pending, { afterFlags.1 with busy := pending ≠ [] }⟩, afterFlags.2)

/-! ## Helper lemmas -/

theorem pyGet_ok {l : List α} {i : Nat} (h : i < l.length) :
    ∃ a, pyGet l i = .ok a := by
  cases hg : l.get? i with
  | none => rw [List.get?_eq_none] at hg; omega
  | some a => exact ⟨a, by unfold pyGet; rw [hg]⟩

theorem pyGet_cons_zero (a : α) (l : List α) : pyGet (a :: l) 0 = .ok a := rfl

theorem pyGetGuard_eq (l : List α) (i : Nat) (d : α) :
    pyGetGuard l i d = .ok ((l.get? i).getD d) := by
  unfold pyGetGuard pyGet
  split
  · next h =>
    cases hg : l.get? i with
    | none => rw [List.get?_eq_none] at hg; omega
    | some a => rfl
  · next h =>
    cases hg : l.get? i with
    | none => rfl
    | some a =>
      obtain ⟨hlt, -⟩ := List.get?_eq_some.mp hg
      omega

theorem pyGetLast_ok {l : List α} (h : l ≠ []) :
    ∃ a, pyGetLast l = .ok a := by
  cases l with
  | nil => exact absurd rfl h
  | cons a t =>
    refine ⟨(a :: t).getLast (by simp), ?_⟩
    unfold pyGetLast
    rw [List.getLast?_eq_getLast (a :: t) (by simp)]

theorem shape6 (l : List α) (h : 6 ≤ l.length) :
    ∃ a b c d e f t, l = a :: b :: c :: d :: e :: f :: t := by
  rcases l with _ | ⟨a, _ | ⟨b, _ | ⟨c, _ | ⟨d, _ | ⟨e, _ | ⟨f, t⟩⟩⟩⟩⟩⟩
  · exfalso; simp only [List.length_nil] at h; omega
  · exfalso; simp only [List.length_cons, List.length_nil] at h; omega
  · exfalso; simp only [List.length_cons, List.length_nil] at h; omega
  · exfalso; simp only [List.length_cons, List.length_nil] at h; omega
  · exfalso; simp only [List.length_cons, List.length_nil] at h; omega
  · exfalso; simp only [List.length_cons, List.length_nil] at h; omega
  · exact ⟨a, b, c, d, e, f, t, rfl⟩

theorem shape4 (l : List α) (h : 4 ≤ l.length) :
    ∃ a b c d t, l = a :: b :: c :: d :: t := by
  rcases l with _ | ⟨a, _ | ⟨b, _ | ⟨c, _ | ⟨d, t⟩⟩⟩⟩
  · exfalso; simp only [List.length_nil] at h; omega
  · exfalso; simp only [List.length_cons, List.length_nil] at h; omega
  · exfalso; simp only [List.length_cons, List.length_nil] at h; omega
  · exfalso; simp only [List.length_cons, List.length_nil] at h; omega
  · exact ⟨a, b, c, d, t, rfl⟩

theorem padFields_length (n : Nat) (fields : List Str) :
    n ≤ (padFields n fields).length := by
  unfold padFields
  split
  · next h => simp only [List.length_append, List.length_replicate]; omega
  · next h => omega

/-! ## C5: preconditions raise synchronously, before any dispatch -/

/-- C5: `GitService.push` with `set_upstream=True` and a missing remote or
branch raises `ValueError` with no command dispatched, and
`CommandRunner.run` with an empty argument vector raises `ValueError` with
no process started (the error is returned before any runner state is
created or mutated). -/
theorem preconditions_raise_before_dispatch :
    (∀ (rs : RunnerState) (repo_path : String) (remote branch : Option String),
      remote = none ∨ branch = none →
      gitServicePush rs repo_path true remote branch = .error .valueError) ∧
    (∀ (rs : RunnerState) (spec : CommandSpec), spec.args = [] →
      commandRunnerRun rs spec = .error .valueError) := by
  constructor
  · intro rs repo_path remote branch h
    cases remote with
    | none => rfl
    | some r =>
      cases branch with
      | none => rfl
      | some b => rcases h with h | h <;> simp at h
  · intro rs spec h
    simp [commandRunnerRun, h]

/-- Witness for C5 at concrete inputs. -/
theorem preconditions_raise_before_dispatch_witness :
    gitServicePush {} "/repo" true none (some "main") = .error .valueError ∧
    commandRunnerRun {} { args := [] } = .error .valueError :=
  ⟨preconditions_raise_before_dispatch.1 {} "/repo" none (some "main") (.inl rfl),
   preconditions_raise_before_dispatch.2 {} { args := [] } rfl⟩

/-! ## C3: queue priority selection -/

theorem prio_beq_user_user :
    (QueuePriority.USER == QueuePriority.USER) = true := rfl

theorem prio_beq_bg_user :
    (QueuePriority.BACKGROUND == QueuePriority.USER) = false := rfl

/-- Starting while already running is a no-op. -/
theorem tryStartNext_running (s : CommandQueue) (h : s.running = true) :
    tryStartNext s = (s, none) := by
  unfold tryStartNext
  rw [h]
  rfl

/-- `enqueue` while running only updates the pending list. -/
theorem enqueue_running (s : CommandQueue) (item : QueueItem)
    (h : s.running = true) :
    enqueue s item =
      ({ s with queue :=
        (if item.priority == QueuePriority.BACKGROUND then
          s.queue.filter (fun q => ¬ q.key == item.key)
        else s.queue) ++ [item] }, none) := by
  unfold enqueue
  rw [tryStartNext_running _ (by simpa using h)]

/-- C3: whenever the queue starts the next item, it selects the earliest
queued USER item if one is queued and the earliest queued item otherwise
(the started item is the head of `filter USER ++ queue`); the selected item
is removed from the pending list and the queue transitions to running.  In
particular a USER item enqueued, while the queue is busy, after a
BACKGROUND item is the one started when the queue next goes idle. -/
theorem queue_priority_selection :
    (∀ s : CommandQueue, s.running = false →
      (tryStartNext s).2 =
        ((s.queue.filter fun q => q.priority == QueuePriority.USER) ++ s.queue).head?) ∧
    (∀ s : CommandQueue, s.running = false → s.queue ≠ [] →
      ∃ it, (tryStartNext s).2 = some it ∧
        (tryStartNext s).1 = ⟨true, s.queue.erase it⟩) ∧
    (∀ b u : QueueItem, b.priority = QueuePriority.BACKGROUND →
      u.priority = QueuePriority.USER →
      (markIdle (enqueue (enqueue (markRunning ⟨false, []⟩) b).1 u).1).2 = some u) := by
  refine ⟨?_, ?_, ?_⟩
  · intro s h
    obtain ⟨r, q⟩ := s
    cases r with
    | true => exact absurd h (by simp)
    | false =>
      cases q with
      | nil => rfl
      | cons q0 qs =>
        show some (selectNext q0 qs) =
          ((q0 :: qs).filter (fun q => q.priority == QueuePriority.USER) ++
            (q0 :: qs)).head?
        unfold selectNext
        cases hu : (q0 :: qs).filter (fun q => q.priority == QueuePriority.USER) with
        | nil => rfl
        | cons i rest => rfl
  · intro s h hne
    obtain ⟨r, q⟩ := s
    cases r with
    | true => exact absurd h (by simp)
    | false =>
      cases q with
      | nil => exact absurd rfl hne
      | cons q0 qs => exact ⟨selectNext q0 qs, rfl, rfl⟩
  · intro b u hb hu
    have h1 : (enqueue (markRunning ⟨false, []⟩) b).1 = ⟨true, [b]⟩ := by
      rw [enqueue_running _ _ rfl]
      simp [markRunning]
    have h2 : (enqueue (⟨true, [b]⟩ : CommandQueue) u).1 = ⟨true, [b, u]⟩ := by
      rw [enqueue_running _ _ rfl]
      rw [hu]
      rfl
    rw [h1, h2]
    show some (selectNext b [u]) = some u
    unfold selectNext
    simp [List.filter_cons, hb, hu, prio_beq_bg_user, prio_beq_user_user]

/-- Witness for C3 at a concrete busy queue holding one BACKGROUND item and
one later USER item with distinct keys. -/
theorem queue_priority_selection_witness :
    (markIdle (enqueue (enqueue (markRunning ⟨false, []⟩)
        ⟨"refresh_status", QueuePriority.BACKGROUND⟩).1
        ⟨"commit", QueuePriority.USER⟩).1).2 =
      some ⟨"commit", QueuePriority.USER⟩ :=
  queue_priority_selection.2.2 ⟨"refresh_status", QueuePriority.BACKGROUND⟩
    ⟨"commit", QueuePriority.USER⟩ rfl rfl

/-! ## C2: background coalescing -/

theorem bgCount_append (k : String) (a b : List QueueItem) :
    bgCount k (a ++ b) = bgCount k a + bgCount k b := by
  unfold bgCount
  rw [List.filter_append]
  exact List.length_append _ _

theorem bgCount_sublist_le (k : String) {a b : List QueueItem}
    (h : List.Sublist a b) : bgCount k a ≤ bgCount k b :=
  (h.filter _).length_le

theorem bgCount_erase_le (k : String) (q : List QueueItem) (it : QueueItem) :
    bgCount k (q.erase it) ≤ bgCount k q :=
  bgCount_sublist_le k (List.erase_sublist it q)

theorem prio_beq_user_bg :
    (QueuePriority.USER == QueuePriority.BACKGROUND) = false := rfl

theorem prio_beq_bg_bg :
    (QueuePriority.BACKGROUND == QueuePriority.BACKGROUND) = true := rfl

theorem bgCount_singleton_le (k : String) (x : QueueItem) :
    bgCount k [x] ≤ 1 := by
  unfold bgCount
  simp only [List.filter]
  split <;> simp

theorem bgCount_filter_ne_key (k : String) (q : List QueueItem) :
    bgCount k (q.filter fun x => ¬ x.key == k) = 0 := by
  unfold bgCount
  rw [List.length_eq_zero]
  refine List.filter_eq_nil_iff.mpr ?_
  intro x hx
  have h2 : decide (¬ (x.key == k) = true) = true := (List.mem_filter.mp hx).2
  rw [decide_eq_true_eq] at h2
  intro hab
  rw [Bool.and_eq_true] at hab
  exact h2 hab.2

/-- The queue produced by `tryStartNext` is the input queue or the input
queue with the started item erased. -/
theorem tryStartNext_queue_cases (s : CommandQueue) :
    (tryStartNext s).1.queue = s.queue ∨
      ∃ it, (tryStartNext s).1.queue = s.queue.erase it := by
  obtain ⟨r, q⟩ := s
  cases r with
  | true => exact .inl rfl
  | false =>
    cases q with
    | nil => exact .inl rfl
    | cons q0 qs => exact .inr ⟨selectNext q0 qs, rfl⟩

/-- C2, amended: among BACKGROUND items the coalescing-key invariant holds
in every reachable state, and enqueuing a USER item never removes queued
items (so same-key USER items can pile up); but enqueuing a BACKGROUND item
removes every queued item with its key regardless of priority, USER items
included. -/
theorem queue_coalescing_amended :
    (∀ s : CommandQueue, Reachable s → ∀ k : String, bgCount k s.queue ≤ 1) ∧
    (∀ (s : CommandQueue) (it : QueueItem), it.priority = QueuePriority.USER →
      s.running = true → (enqueue s it).1.queue = s.queue ++ [it]) ∧
    (∀ (s : CommandQueue) (it : QueueItem), it.priority = QueuePriority.USER →
      s.running = true →
      (enqueue (enqueue s it).1 it).1.queue = s.queue ++ [it] ++ [it]) ∧
    (∀ (s : CommandQueue) (it : QueueItem),
      it.priority = QueuePriority.BACKGROUND → s.running = true →
      (enqueue s it).1.queue =
        s.queue.filter (fun q => ¬ q.key == it.key) ++ [it]) := by
  have huser : ∀ (s : CommandQueue) (it : QueueItem),
      it.priority = QueuePriority.USER → s.running = true →
      (enqueue s it).1.queue = s.queue ++ [it] := by
    intro s it hit hrun
    rw [enqueue_running s it hrun, hit]
    rfl
  refine ⟨?_, huser, ?_, ?_⟩
  · intro s hs
    induction hs with
    | init => intro k; simp [bgCount]
    | markRun _ ih => exact ih
    | markIdl _ ih =>
      intro k
      rcases tryStartNext_queue_cases _ with h | ⟨it, h⟩ <;>
        · unfold markIdle
          rw [h]
          first
            | exact ih k
            | exact le_trans (bgCount_erase_le k _ it) (ih k)
    | enq item _ ih =>
      rename_i s _
      intro k
      have hdef : enqueue s item = tryStartNext { s with queue :=
          (if item.priority == QueuePriority.BACKGROUND then
            s.queue.filter (fun q => ¬ q.key == item.key)
          else s.queue) ++ [item] } := rfl
      have htarget : bgCount k
          ((if item.priority == QueuePriority.BACKGROUND then
            s.queue.filter (fun q => ¬ q.key == item.key)
          else s.queue) ++ [item]) ≤ 1 := by
        rw [bgCount_append]
        cases hp : item.priority with
        | USER =>
          have h0 : bgCount k [item] = 0 := by
            unfold bgCount
            simp [List.filter_cons, hp, prio_beq_user_bg]
          simp only [hp, prio_beq_user_bg, Bool.false_eq_true, if_false, h0]
          simpa using ih k
        | BACKGROUND =>
          simp only [hp, prio_beq_bg_bg, if_true]
          by_cases hk : item.key = k
          · have h0 : bgCount k (s.queue.filter fun q => ¬ q.key == item.key) = 0 := by
              rw [hk]
              exact bgCount_filter_ne_key k s.queue
            have h1 : bgCount k [item] ≤ 1 := bgCount_singleton_le k item
            omega
          · have hkb : (item.key == k) = false := beq_eq_false_iff_ne.mpr hk
            have h0 : bgCount k [item] = 0 := by
              unfold bgCount
              simp [List.filter_cons, hkb]
            have h1 : bgCount k (s.queue.filter fun q => ¬ q.key == item.key) ≤ 1 :=
              le_trans (bgCount_sublist_le k (List.filter_sublist s.queue)) (ih k)
            omega
      rw [hdef]
      rcases tryStartNext_queue_cases ({ s with queue :=
          (if item.priority == QueuePriority.BACKGROUND then
            s.queue.filter (fun q => ¬ q.key == item.key)
          else s.queue) ++ [item] }) with h | ⟨it, h⟩
      · rw [h]
        exact htarget
      · rw [h]
        exact le_trans (bgCount_erase_le k _ it) htarget
  · intro s it hit hrun
    have h1 := huser s it hit hrun
    have hrun2 : (enqueue s it).1.running = true := by
      rw [enqueue_running s it hrun]
      exact hrun
    have h2 := huser _ it hit hrun2
    rw [h2, h1]
  · intro s it hit hrun
    rw [enqueue_running s it hrun, hit]
    rfl

/-- A USER item queued behind a busy queue. -/
def qUser : QueueItem := ⟨"refresh_status", QueuePriority.USER⟩

/-- A BACKGROUND item with the same coalescing key. -/
def qBack : QueueItem := ⟨"refresh_status", QueuePriority.BACKGROUND⟩

/-- A busy queue (as after `mark_running`). -/
def busyQueue : CommandQueue := markRunning ⟨false, []⟩

def queueWithUser : CommandQueue := (enqueue busyQueue qUser).1

def queueAfterBackground : CommandQueue := (enqueue queueWithUser qBack).1

/-- Witness for the amended C2 at a concrete reachable state. -/
theorem queue_coalescing_amended_witness :
    bgCount "refresh_status" queueAfterBackground.queue ≤ 1 :=
  queue_coalescing_amended.1 queueAfterBackground
    (Reachable.enq qBack (Reachable.enq qUser (Reachable.markRun Reachable.init)))
    "refresh_status"

/-- Counterexample to C2 as stated: in a reachable state, enqueuing a
BACKGROUND item removes an already-queued USER item with the same key from
the pending list. -/
theorem user_item_evicted_by_background_enqueue :
    Reachable queueAfterBackground ∧ qUser ∈ queueWithUser.queue ∧
      qUser ∉ queueAfterBackground.queue :=
  ⟨Reachable.enq qBack (Reachable.enq qUser (Reachable.markRun Reachable.init)),
   by decide, by decide⟩

/-! ## C4: nonzero exit stops routing -/

/-- C4: when the pending intent is found and the exit code is nonzero, the
controller records a `CommandFailed` error carrying the argv, exit code,
stdout and stderr, and performs no further routing: the resulting state is
the old one with only the error (and the recomputed busy flag) changed —
no data field is touched, no parser output is stored, and the list of
follow-up enqueues is empty. -/
theorem command_failure_stops_routing (cs : CtrlState) (handle : RunHandle)
    (result : CommandResult) (action : PendingAction)
    (hlook : lookupPending handle.run_id cs.pending = some action)
    (hexit : result.exit_code ≠ 0) :
    onCommandFinished cs handle result =
      (⟨removePending handle.run_id cs.pending,
        { cs.state with
          last_error := some (.commandFailed handle.spec.args result.exit_code
            result.stdout result.stderr),
          busy := removePending handle.run_id cs.pending ≠ [] }⟩, []) := by
  have hok : result.ok = false := by
    unfold CommandResult.ok
    exact beq_eq_false_iff_ne.mpr hexit
  unfold onCommandFinished
  rw [hlook, hok]
  simp

/-- Witness for C4: a failed `git status` (exit code 1). -/
theorem command_failure_stops_routing_witness :
    onCommandFinished ⟨[(1, { kind := "status" })], {}⟩
        ⟨1, { args := ["git", "status"] }, 0⟩ ⟨1, [], asciiBytes "fatal", 3⟩ =
      (⟨[], { last_error := some (.commandFailed ["git", "status"] 1 []
          (asciiBytes "fatal")), busy := false }⟩, []) := by
  rw [command_failure_stops_routing ⟨[(1, { kind := "status" })], {}⟩
    ⟨1, { args := ["git", "status"] }, 0⟩ ⟨1, [], asciiBytes "fatal", 3⟩
    { kind := "status" } rfl (by decide)]
  rfl

/-! ## C9: repo-validation routing -/

/-- C9, amended: for a completed repo-validation command with exit code 0,
the controller accepts the path exactly when the decoded **and
whitespace-stripped** stdout equals `"true"`; acceptance sets the repo path,
clears the error, and enqueues a status refresh; anything else records the
specific `NotARepo` error for that path (never a parse failure). -/
theorem validate_repo_requires_stripped_true (cs : CtrlState) (handle : RunHandle)
    (result : CommandResult) (path : String)
    (hlook : lookupPending handle.run_id cs.pending =
      some { kind := "validate_repo", repo_path := some path })
    (hexit : result.exit_code = 0) (hne : path ≠ "") :
    onCommandFinished cs handle result =
      (if pyStrip (decodeUtf8Replace result.stdout) = chars "true" then
        (⟨removePending handle.run_id cs.pending,
          { cs.state with
            repo_path := some path,
            last_error := none,
            busy := removePending handle.run_id cs.pending ≠ [] }⟩,
         [("refresh_status", QueuePriority.BACKGROUND)])
      else
        (⟨removePending handle.run_id cs.pending,
          { cs.state with
            last_error := some (.notARepo path),
            busy := removePending handle.run_id cs.pending ≠ [] }⟩, [])) := by
  have hok : result.ok = true := by simp [CommandResult.ok, hexit]
  unfold onCommandFinished
  rw [hlook, hok]
  by_cases htrue : pyStrip (decodeUtf8Replace result.stdout) = chars "true"
  · rw [if_pos htrue]
    simp [refreshIntent, repoPathFalsy, hne, htrue]
  · rw [if_neg htrue]
    simp [htrue]

/-- Concrete repo-validation completion whose stdout is `b"true\n"`. -/
def vrState : CtrlState :=
  ⟨[(1, { kind := "validate_repo", repo_path := some "/repo" })], {}⟩

def vrHandle : RunHandle :=
  ⟨1, { args := ["git", "rev-parse", "--is-inside-work-tree"] }, 0⟩

def vrResult : CommandResult := ⟨0, asciiBytes "true\n", [], 4⟩

/-- Counterexample to C9 as stated: with stdout `b"true\n"` the decoded
stdout is not the literal string `"true"`, yet the controller accepts the
path (it strips whitespace first) instead of recording `NotARepo`. -/
theorem validate_repo_accepts_unstripped_true :
    decodeUtf8Replace vrResult.stdout ≠ chars "true" ∧
    (onCommandFinished vrState vrHandle vrResult).1.state.repo_path = some "/repo" ∧
    (onCommandFinished vrState vrHandle vrResult).1.state.last_error = none := by
  refine ⟨by decide, rfl, rfl⟩

/-- Witness for the amended C9: stdout `b"true\n"` is accepted. -/
theorem validate_repo_requires_stripped_true_witness :
    onCommandFinished vrState vrHandle vrResult =
      (⟨[], { repo_path := some "/repo", last_error := none, busy := false }⟩,
       [("refresh_status", QueuePriority.BACKGROUND)]) := by
  rw [validate_repo_requires_stripped_true vrState vrHandle vrResult "/repo" rfl rfl
    (by decide)]
  rw [if_pos (by decide)]
  rfl

/-! ## C10: surplus `\x1f` fields are discarded -/

/-- C10: when a log record splits into more than 6 fields (or a stash
record into more than 4), the surplus fields are dropped: the produced
`Commit` (resp. `StashEntry`) is built from fields 0–5 (resp. 0–3) only, so
the subject is exactly the 6th field and the stash date exactly the 4th,
never the remainder of the record. -/
theorem extra_fields_discarded :
    (∀ (record : Str) (rest : List Str), record ≠ [] →
      6 ≤ (splitOnElem '\x1f' record).length →
      logLoop (record :: rest) =
        (match logLoop rest with
         | .error e => .error e
         | .ok commits => .ok (
            { oid := ((splitOnElem '\x1f' record).get? 0).getD [],
              parents :=
                if ((splitOnElem '\x1f' record).get? 1).getD [] ≠ [] then
                  pySplitWs (((splitOnElem '\x1f' record).get? 1).getD [])
                else [],
              author_name := ((splitOnElem '\x1f' record).get? 2).getD [],
              author_email := ((splitOnElem '\x1f' record).get? 3).getD [],
              author_date := ((splitOnElem '\x1f' record).get? 4).getD [],
              subject := ((splitOnElem '\x1f' record).get? 5).getD [] } :: commits))) ∧
    (∀ (record : Str) (rest : List Str), record ≠ [] →
      4 ≤ (splitOnElem '\x1f' record).length →
      stashLoop (record :: rest) =
        (match stashLoop rest with
         | .error e => .error e
         | .ok stashes => .ok (
            { oid := ((splitOnElem '\x1f' record).get? 0).getD [],
              selector := ((splitOnElem '\x1f' record).get? 1).getD [],
              summary := ((splitOnElem '\x1f' record).get? 2).getD [],
              date := ((splitOnElem '\x1f' record).get? 3).getD [] } :: stashes))) := by
  constructor
  · intro record rest hne hlen
    obtain ⟨a, b, c, d, e, f, t, hsplit⟩ := shape6 _ hlen
    simp only [logLoop]
    rw [if_neg hne, hsplit]
    have hpad : padFields 6 (a :: b :: c :: d :: e :: f :: t) =
        a :: b :: c :: d :: e :: f :: t := by
      unfold padFields
      rw [if_neg]
      simp only [List.length_cons]
      omega
    rw [hpad]
    simp [List.get?]
  · intro record rest hne hlen
    obtain ⟨a, b, c, d, t, hsplit⟩ := shape4 _ hlen
    simp only [stashLoop]
    rw [if_neg hne, hsplit]
    have hpad : padFields 4 (a :: b :: c :: d :: t) = a :: b :: c :: d :: t := by
      unfold padFields
      rw [if_neg]
      simp only [List.length_cons]
      omega
    rw [hpad]
    simp [List.get?]

/-- A log record with 8 fields and a stash record with 6 fields. -/
def logRecord8 : Str := chars "o\x1fp\x1fn\x1fe\x1fd\x1fs\x1fx1\x1fx2"

def stashRecord6 : Str := chars "o\x1fsel\x1fsum\x1fdate\x1fx1\x1fx2"

/-- Witness for C10: on the 8-field record the subject is `"s"` (the 6th
field) and on the 6-field stash record the date is `"date"` (the 4th). -/
theorem extra_fields_discarded_witness :
    logLoop [logRecord8] =
      .ok [{ oid := chars "o", parents := [chars "p"], author_name := chars "n",
             author_email := chars "e", author_date := chars "d",
             subject := chars "s" }] ∧
    stashLoop [stashRecord6] =
      .ok [{ oid := chars "o", selector := chars "sel", summary := chars "sum",
             date := chars "date" }] := by
  constructor
  · have h := extra_fields_discarded.1 logRecord8 [] (by decide) (by decide)
    rw [h]
    rfl
  · have h := extra_fields_discarded.2 stashRecord6 [] (by decide) (by decide)
    rw [h]
    rfl

/-! ## C7: status round-trip example -/

/-- The spec's round-trip input
`"# branch.head main\x00# branch.ab +1 -2\x001 M. N... 100644 100644 100644 abcdef1 abcdef2 src/app.py\x00? new.txt\x00"`. -/
def c7bytes : Bytes :=
  asciiBytes "# branch.head main" ++ [0] ++
  asciiBytes "# branch.ab +1 -2" ++ [0] ++
  asciiBytes "1 M. N... 100644 100644 100644 abcdef1 abcdef2 src/app.py" ++ [0] ++
  asciiBytes "? new.txt" ++ [0]

/-- C7: the round-trip input yields branch `"main"`, ahead 1, behind 2,
exactly one staged entry `src/app.py` (absent from the unstaged list since
its Y code is `.`), and exactly one untracked entry `new.txt`. -/
theorem status_roundtrip_example :
    parse_status_porcelain_v2 c7bytes =
      .ok { branch := some { name := some (chars "main"), head_oid := none,
                             upstream := none, ahead := 1, behind := 2 },
            staged := [{ path := chars "src/app.py", staged_status := 'M',
                         unstaged_status := '.' }],
            unstaged := [],
            untracked := [{ path := chars "new.txt", staged_status := '?',
                            unstaged_status := '?' }],
            conflicted := [] } := by
  rfl

/-! ## C8: branch-header sentinel values -/

/-- C8, amended: the sentinel handling is per key — a `branch.oid` value is
dropped exactly when it is `(initial)` or `(unknown)`, and a `branch.head`
value exactly when it is `(detached)` or `(unknown)`; the other sentinel is
stored verbatim for each key. -/
theorem branch_sentinels_per_key (acc : StatusAcc) (v : Str) :
    (processBranchHeader acc (chars "# branch.oid " ++ v)).branch_oid =
      (if v = chars "(initial)" ∨ v = chars "(unknown)" then acc.branch_oid
       else some v) ∧
    (processBranchHeader acc (chars "# branch.head " ++ v)).branch_name =
      (if v = chars "(detached)" ∨ v = chars "(unknown)" then acc.branch_name
       else some v) := by
  constructor
  · show (if v ≠ chars "(initial)" ∧ v ≠ chars "(unknown)" then
        { acc with branch_seen := true, branch_oid := some v }
      else { acc with branch_seen := true }).branch_oid = _
    by_cases h1 : v = chars "(initial)"
    · simp [h1]
    · by_cases h2 : v = chars "(unknown)"
      · simp [h2]
      · simp [h1, h2]
  · show (if v ≠ chars "(detached)" ∧ v ≠ chars "(unknown)" then
        { acc with branch_seen := true, branch_name := some v }
      else { acc with branch_seen := true }).branch_name = _
    by_cases h1 : v = chars "(detached)"
    · simp [h1]
    · by_cases h2 : v = chars "(unknown)"
      · simp [h2]
      · simp [h1, h2]

/-- A status payload whose `branch.oid` value is the `(detached)` sentinel. -/
def oidDetachedBytes : Bytes := asciiBytes "# branch.oid (detached)" ++ [0]

/-- Counterexample to C8 as stated: `(detached)` as the value of a
`branch.oid` line is **not** treated as absent — the parser stores the
sentinel text as the branch's head oid. -/
theorem sentinel_detached_oid_kept :
    parse_status_porcelain_v2 oidDetachedBytes =
      .ok { branch := some { name := none,
                             head_oid := some (chars "(detached)"),
                             upstream := none, ahead := 0, behind := 0 },
            staged := [], unstaged := [], untracked := [], conflicted := [] } := by
  rfl

/-! ## C6: a type-2 record consumes the following record -/

/-- C6: whenever a type-2 (rename/copy) record is immediately followed by a
non-empty NUL-delimited record, the status loop produces exactly one
`FileChange` for the pair, its `orig_path` is the decoded text of the
following record, and the loop resumes after that following record (it is
consumed, not parsed as an independent entry). -/
theorem rename_consumes_next_record (fuel : Nat) (rec2 next : Bytes)
    (rest : List Bytes) (acc : StatusAcc)
    (hrec : rec2 ≠ []) (hnext : next ≠ [])
    (hhead : (decodeUtf8Replace rec2).head? = some '2') :
    ∃ change : FileChange, ∃ xy : Str,
      change.orig_path = some (decodeUtf8Replace next) ∧
      statusLoop (fuel + 1) (rec2 :: next :: rest) acc =
        statusLoop fuel rest (add_by_xy acc change xy) := by
  obtain ⟨cs, hline⟩ : ∃ cs, decodeUtf8Replace rec2 = '2' :: cs := by
    cases hl : decodeUtf8Replace rec2 with
    | nil => rw [hl] at hhead; simp at hhead
    | cons c cs =>
      rw [hl] at hhead
      simp only [List.head?_cons, Option.some.injEq] at hhead
      exact ⟨cs, by rw [hhead]⟩
  refine ⟨{ path := ((pySplitCharMax ' ' 9 ('2' :: cs)).get? 9).getD [],
            staged_status :=
              (split_xy (((pySplitCharMax ' ' 9 ('2' :: cs)).get? 1).getD (chars ".."))).1,
            unstaged_status :=
              (split_xy (((pySplitCharMax ' ' 9 ('2' :: cs)).get? 1).getD (chars ".."))).2,
            orig_path := some (decodeUtf8Replace next) },
          ((pySplitCharMax ' ' 9 ('2' :: cs)).get? 1).getD (chars ".."), rfl, ?_⟩
  simp only [statusLoop]
  rw [if_neg hrec, hline]
  have hpre : ((chars "# ").isPrefixOf ('2' :: cs)) = false := rfl
  rw [hpre]
  simp only [Bool.false_eq_true, if_false, pyGet_cons_zero]
  rw [if_neg (by decide : ¬ ('2' : Char) = '1')]
  rw [pyGetGuard_eq, pyGetGuard_eq]
  exact if_pos hnext

/-- A concrete porcelain-v2 rename record and its companion orig-path
record. -/
def renameRecord : Bytes :=
  asciiBytes "2 R. N... 100644 100644 100644 aaa bbb R100 new.txt"

def origPathRecord : Bytes := asciiBytes "old.txt"

/-- Witness for C6 at the concrete rename pair. -/
theorem rename_consumes_next_record_witness :
    ∃ change : FileChange, ∃ xy : Str,
      change.orig_path = some (decodeUtf8Replace origPathRecord) ∧
      statusLoop 1 [renameRecord, origPathRecord] {} =
        statusLoop 0 [] (add_by_xy {} change xy) :=
  rename_consumes_next_record 0 renameRecord origPathRecord [] {}
    (by decide) (by decide) (by decide)

/-! ## C1: every parser returns a well-typed result on every input -/

theorem statusLoop_isOk (fuel : Nat) :
    ∀ (records : List Bytes) (acc : StatusAcc),
      (statusLoop fuel records acc).isOk = true := by
  induction fuel with
  | zero => intro records acc; rfl
  | succ n ih =>
    intro records acc
    cases records with
    | nil => rfl
    | cons record rest =>
      simp only [statusLoop]
      by_cases hrec : record = []
      · rw [if_pos hrec]
        exact ih rest acc
      · rw [if_neg hrec]
        obtain ⟨c, cs', hl⟩ : ∃ c cs', decodeUtf8Replace record = c :: cs' := by
          cases hd : decodeUtf8Replace record with
          | nil => exact absurd hd (decodeUtf8Replace_ne_nil record hrec)
          | cons c cs' => exact ⟨c, cs', rfl⟩
        simp only [hl, pyGet_cons_zero, pyGetGuard_eq]
        repeat (first | exact ih _ _ | split)

theorem logLoop_isOk (records : List Str) : (logLoop records).isOk = true := by
  induction records with
  | nil => rfl
  | cons record rest ih =>
    simp only [logLoop]
    by_cases hrec : record = []
    · rw [if_pos hrec]
      exact ih
    · rw [if_neg hrec]
      obtain ⟨a, b, c, d, e, f, t, hsh⟩ :=
        shape6 _ (padFields_length 6 (splitOnElem '\x1f' record))
      simp only [hsh, List.take_succ_cons, List.take_zero]
      cases hr : logLoop rest with
      | error err => rw [hr] at ih; simp [Except.isOk, Except.toBool] at ih
      | ok commits => simp only [hr]; rfl

theorem stashLoop_isOk (records : List Str) : (stashLoop records).isOk = true := by
  induction records with
  | nil => rfl
  | cons record rest ih =>
    simp only [stashLoop]
    by_cases hrec : record = []
    · rw [if_pos hrec]
      exact ih
    · rw [if_neg hrec]
      obtain ⟨a, b, c, d, t, hsh⟩ :=
        shape4 _ (padFields_length 4 (splitOnElem '\x1f' record))
      simp only [hsh, List.take_succ_cons, List.take_zero]
      cases hr : stashLoop rest with
      | error err => rw [hr] at ih; simp [Except.isOk, Except.toBool] at ih
      | ok stashes => simp only [hr]; rfl

theorem parseBranchLine_isOk (line : Str) : ∃ b, parseBranchLine line = .ok b := by
  unfold parseBranchLine
  simp only [pyGetGuard_eq]
  exact ⟨_, rfl⟩

theorem branchLoop_isOk (lines : List Str) : (branchLoop lines).isOk = true := by
  induction lines with
  | nil => rfl
  | cons line rest ih =>
    simp only [branchLoop]
    by_cases h : line = []
    · rw [if_pos h]
      exact ih
    · rw [if_neg h]
      obtain ⟨b, hb⟩ := parseBranchLine_isOk line
      simp only [hb]
      cases hr : branchLoop rest with
      | error err => rw [hr] at ih; simp [Except.isOk, Except.toBool] at ih
      | ok bs => simp only [hr]; rfl

theorem strContains_char_mem {s : Str} {ch : Char}
    (h : strContains s [ch] = true) : ch ∈ s := by
  induction s with
  | nil => simp [strContains, List.isPrefixOf] at h
  | cons a rest ih =>
    simp only [strContains, Bool.or_eq_true] at h
    rcases h with h | h
    · simp [List.isPrefixOf] at h
      exact h ▸ List.mem_cons_self a rest
    · exact List.mem_cons_of_mem a (ih h)

theorem pySplitCharMax_one_of_mem {s : Str} {ch : Char} (h : ch ∈ s) :
    pySplitCharMax ch 1 s =
      [s.takeWhile (fun c => c ≠ ch), (s.dropWhile (fun c => c ≠ ch)).tail] := by
  have hne : s.dropWhile (fun c => c ≠ ch) ≠ [] := by
    intro hemp
    have := List.dropWhile_eq_nil_iff.mp hemp ch h
    simp at this
  simp only [pySplitCharMax]
  cases hd : s.dropWhile (fun c => c ≠ ch) with
  | nil => exact absurd hd hne
  | cons x tail => simp [hd]

theorem remoteBranchLoop_isOk (lines : List Str) :
    (remoteBranchLoop lines).isOk = true := by
  induction lines with
  | nil => rfl
  | cons line rest ih =>
    simp only [remoteBranchLoop]
    by_cases h1 : pyStrip line = []
    · rw [if_pos h1]
      exact ih
    · rw [if_neg h1]
      by_cases h2 : strContains (pyStrip line) (chars "->") = true
      · rw [if_pos h2]
        exact ih
      · rw [if_neg h2]
        by_cases h3 : strContains (pyStrip line) (chars "/") = true
        · rw [if_neg (not_not_intro h3)]
          have hmem : '/' ∈ pyStrip line := strContains_char_mem h3
          rw [pySplitCharMax_one_of_mem hmem]
          cases hr : remoteBranchLoop rest with
          | error err => rw [hr] at ih; simp [Except.isOk, Except.toBool] at ih
          | ok bs =>
            simp only [hr]
            repeat (first | rfl | split)
        · rw [if_pos h3]
          exact ih

theorem remotesLoop_isOk (lines : List Str) :
    ∀ acc, (remotesLoop lines acc).isOk = true := by
  induction lines with
  | nil => intro acc; rfl
  | cons line rest ih =>
    intro acc
    simp only [remotesLoop]
    by_cases h1 : pyStrip line = []
    · rw [if_pos h1]
      exact ih acc
    · rw [if_neg h1]
      by_cases h2 : (pySplitWs line).length < 3
      · rw [if_pos h2]
        exact ih acc
      · rw [if_neg h2]
        obtain ⟨nm, hnm⟩ := pyGet_ok (l := pySplitWs line) (i := 0) (by omega)
        obtain ⟨lastv, hlast⟩ := pyGetLast_ok (l := pySplitWs line)
          (by intro hemp; rw [hemp] at h2; simp at h2)
        simp only [hnm, hlast]
        repeat (first | exact ih _ | split)

/-- C1: for every byte string, each of the nine output parsers returns a
well-typed result and never raises: in the embedding every operation the
Python code could raise on lives in `Except PyErr`, and each parser is
proved to return `Except.ok`. -/
theorem parsers_never_raise (payload : Bytes) :
    (parse_status_porcelain_v2 payload).isOk = true ∧
    (parse_log_records payload).isOk = true ∧
    (parse_branches payload).isOk = true ∧
    (parse_remote_branches payload).isOk = true ∧
    (parse_diff_text payload).isOk = true ∧
    (parse_conflict_paths payload).isOk = true ∧
    (parse_stash_records payload).isOk = true ∧
    (parse_tags payload).isOk = true ∧
    (parse_remotes payload).isOk = true := by
  refine ⟨?_, logLoop_isOk _, branchLoop_isOk _, remoteBranchLoop_isOk _,
    rfl, rfl, stashLoop_isOk _, rfl, ?_⟩
  · unfold parse_status_porcelain_v2
    have h := statusLoop_isOk (splitOnElem 0 payload).length (splitOnElem 0 payload) {}
    cases hs : statusLoop (splitOnElem 0 payload).length (splitOnElem 0 payload) {} with
    | error e => rw [hs] at h; simp [Except.isOk, Except.toBool] at h
    | ok acc => simp only [hs]; rfl
  · unfold parse_remotes
    have h := remotesLoop_isOk (pySplitLines (decodeUtf8Replace payload)) []
    cases hs : remotesLoop (pySplitLines (decodeUtf8Replace payload)) [] with
    | error e => rw [hs] at h; simp [Except.isOk, Except.toBool] at h
    | ok acc => simp only [hs]; rfl

end GitUI
